import Mathlib

/-!
A verification development for the av1transcoder scene pipeline.

The Python sources are shallowly embedded: Python floats become `ℚ`
(every float literal appearing in the verified claims is exactly
representable), Python ints become `Int`/`Nat`, and `None`-able values
become `Option`.  A Python function that can raise an exception on the
modelled inputs is embedded as an `Option`-returning function whose
`none` result stands for "raises".
-/

namespace Av1Transcoder

/-- The record of parsed command-line options consumed by the embedded code.
Modelled from the spec: the repository's `argument_parser.py` (which builds
this `Namespace` object) is not among the sources; the spec describes the
options as plain configuration values, and the fields below are exactly the
attributes the embedded source files read. -/
structure Namespace where
  min_scene_length : ℚ
  force_overwrite : Bool
  limit_encodes : Option Int
  keep_temp : Bool
  dump_commands : String
  max_concurrent_encodes : Nat
  enable_single_pass_encode : Bool
deriving Repr, DecidableEq

/-- One scene of the input video; embedding of `scene_cuts.Scene`
(`scene_cuts.py`, lines 116-180).  `end_*` fields are `Option` because the
terminal scene stores `None` there; `begin_*` fields are `Option` because
`__init__` copies them from `previous_scene.end_*`. -/
structure Scene where
  end_pts : Option Int
  end_pts_time : Option ℚ
  end_scene_score : Option ℚ
  timestamp_match_number : Option Int
  scene_number : Nat
  begin_pts : Option Int
  begin_pts_time : Option ℚ
deriving Repr, DecidableEq

instance : Inhabited Scene :=
  ⟨⟨none, none, none, none, 0, some 0, some 0⟩⟩

/-- Embedding of `Scene.__init__` (`scene_cuts.py`, lines 127-141):
without a previous scene the number is 0 and the begin fields are 0;
otherwise the number increments and the begin fields copy the previous
scene's end fields. -/
def Scene.init (end_pts : Option Int) (end_pts_time : Option ℚ)
    (end_scene_score : Option ℚ) (timestamp_match_number : Option Int)
    (previous : Option Scene) : Scene :=
  match previous with
  | none =>
      { end_pts := end_pts, end_pts_time := end_pts_time,
        end_scene_score := end_scene_score,
        timestamp_match_number := timestamp_match_number,
        scene_number := 0, begin_pts := some 0, begin_pts_time := some 0 }
  | some p =>
      { end_pts := end_pts, end_pts_time := end_pts_time,
        end_scene_score := end_scene_score,
        timestamp_match_number := timestamp_match_number,
        scene_number := p.scene_number + 1, begin_pts := p.end_pts,
        begin_pts_time := p.end_pts_time }

/-- Embedding of the `Scene.length_seconds` property (`scene_cuts.py`,
lines 143-148).  The source returns `None` when `end_pts_time` is `None`;
the case "end present, begin absent" would raise a `TypeError` in Python
and never occurs for scenes the program constructs, and is also mapped to
`none` here (callers that would crash on it are modelled as `Option` and
treat `none` as the raised exception). -/
def Scene.length_seconds (s : Scene) : Option ℚ :=
  match s.end_pts_time, s.begin_pts_time with
  | some e, some b => some (e - b)
  | _, _ => none

/-- Embedding of the `Scene.is_end_scene` property (`scene_cuts.py`,
lines 150-156). -/
def Scene.is_end_scene (s : Scene) : Bool :=
  s.end_pts_time.isNone

/-- Embedding of `Scene.merge_other` (`scene_cuts.py`, lines 158-166):
the end fields are overwritten with the absorbed scene's values, all other
fields are untouched. -/
def Scene.merge_other (s next : Scene) : Scene :=
  { s with end_pts := next.end_pts, end_pts_time := next.end_pts_time,
           end_scene_score := next.end_scene_score }

/-- Embedding of `Scene.factory` (`scene_cuts.py`, lines 118-125), applied
to the captured regex groups. -/
def Scene.factory (frame : Nat) (pts : Nat) (pts_time : ℚ) (scene_score : ℚ)
    (previous : Option Scene) : Scene :=
  Scene.init (some (Int.ofNat pts)) (some pts_time) (some scene_score)
    (some (Int.ofNat frame)) previous

/-- The while-loop of `merge_short_scenes` (`scene_cuts.py`, lines 263-272),
with the mutable `current` accumulator made explicit.  The Python loop pops
`next_` from the front of `scenes`; if `current` is shorter than
`min_scene_length` it absorbs `next_` in place, otherwise `current` is
emitted (it is already the last element of `valid_scenes`) and `next_`
becomes the new accumulator.  A comparison `None < float` raises a
`TypeError` in Python; that case is the `none` result. -/
def mergeLoop (min_scene_length : ℚ) (current : Scene) :
    List Scene → Option (List Scene)
  | [] => some [current]
  | next :: rest =>
    match current.length_seconds with
    | none => none
    | some len =>
      if len < min_scene_length then
        mergeLoop min_scene_length (current.merge_other next) rest
      else
        (mergeLoop min_scene_length next rest).map (current :: ·)

/-- The renumbering loop of `merge_short_scenes` (`scene_cuts.py`,
lines 275-276): `scene.scene_number = index` for each index. -/
def renumberFrom (i : Nat) : List Scene → List Scene
  | [] => []
  | s :: rest => { s with scene_number := i } :: renumberFrom (i + 1) rest

/-- Embedding of `merge_short_scenes` (`scene_cuts.py`, lines 259-278).
An empty input returns `[]`; otherwise the greedy merge loop runs and the
surviving scenes are renumbered densely from 0. -/
def merge_short_scenes (arguments : Namespace) (scenes : List Scene) :
    Option (List Scene) :=
  match scenes with
  | [] => some []
  | current :: rest =>
    (mergeLoop arguments.min_scene_length current rest).map (renumberFrom 0)

/-- Concrete example arguments with `min_scene_length = 5.0` (the value used
in the spec's merge example); the remaining options are arbitrary. -/
def exArgs : Namespace :=
  { min_scene_length := 5, force_overwrite := false, limit_encodes := none,
    keep_temp := false, dump_commands := "no", max_concurrent_encodes := 4,
    enable_single_pass_encode := true }

/-- First scene of the spec's merge example: 0s → 2s (duration 2). -/
def exScene0 : Scene := Scene.init (some 2000) (some 2) (some (2/5)) (some 10) none

/-- Second scene: 2s → 4s (duration 2). -/
def exScene1 : Scene := Scene.init (some 4000) (some 4) (some (3/5)) (some 20) (some exScene0)

/-- Third scene: 4s → 6s (duration 2). -/
def exScene2 : Scene := Scene.init (some 6000) (some 6) (some (4/5)) (some 30) (some exScene1)

/-- Fourth scene: 6s → 16s (duration 10). -/
def exScene3 : Scene := Scene.init (some 16000) (some 16) (some (9/10)) (some 40) (some exScene2)

/-- Terminal scene beginning at 16s, unknown end. -/
def exScene4 : Scene := Scene.init none none none none (some exScene3)

/-- Decidable contiguity of a scene list: each scene's begin time equals the
previous scene's end time (spec §3 invariant). -/
def contiguousB : List Scene → Bool
  | a :: b :: rest =>
      decide (b.begin_pts_time = a.end_pts_time) && contiguousB (b :: rest)
  | _ => true

/-- Decidable "only the last scene may be terminal": every scene except the
last has a known end time (spec §3 invariant). -/
def onlyLastTerminalB : List Scene → Bool
  | a :: b :: rest => a.end_pts_time.isSome && onlyLastTerminalB (b :: rest)
  | _ => true

/-- One scene conforms to the minimum length: it is terminal, or its
duration is defined and at least `m`. -/
def sceneConformsB (m : ℚ) (s : Scene) : Bool :=
  s.is_end_scene ||
    (match s.length_seconds with
     | some d => decide (m ≤ d)
     | none => false)

/-- Every scene of the list conforms to the minimum length. -/
def conformingB (m : ℚ) (l : List Scene) : Bool :=
  l.all (sceneConformsB m)

/-- Claim C4: with `min_scene_length = 5.0` and scene durations
`[2.0, 2.0, 2.0, 10.0, terminal]`, `merge_short_scenes` merges the first
three scenes into one 6-second scene (its end fields overwritten with the
absorbed scene's values), leaves the 10-second scene alone, and emits the
terminal scene as-is up to renumbering; moreover the final accumulator is
always emitted unconditionally (`mergeLoop _ c [] = some [c]`), and an
empty input yields an empty output. -/
theorem merge_example_c4 :
    merge_short_scenes exArgs [exScene0, exScene1, exScene2, exScene3, exScene4] =
      some [{ exScene0 with end_pts := some 6000, end_pts_time := some 6,
                            end_scene_score := some (4/5) },
            { exScene3 with scene_number := 1 },
            { exScene4 with scene_number := 2 }] ∧
    Scene.length_seconds
      { exScene0 with end_pts := some 6000, end_pts_time := some 6,
                      end_scene_score := some (4/5) } = some 6 ∧
    Scene.length_seconds { exScene3 with scene_number := 1 } = some 10 ∧
    Scene.is_end_scene { exScene4 with scene_number := 2 } = true ∧
    (∀ (m : ℚ) (c : Scene), mergeLoop m c [] = some [c]) ∧
    merge_short_scenes exArgs [] = some [] := by
  refine ⟨?_, ?_, ?_, ?_, fun m c => rfl, rfl⟩
  · norm_num [merge_short_scenes, mergeLoop, Scene.length_seconds,
      Scene.merge_other, Scene.init, exScene0, exScene1, exScene2, exScene3,
      exScene4, exArgs]
    simp [renumberFrom]
  · norm_num [Scene.length_seconds, Scene.init, exScene0]
  · norm_num [Scene.length_seconds, Scene.init, exScene0, exScene1, exScene2,
      exScene3]
  · rfl

/-- If the accumulator and everything after it conform to the minimum
length (and only the last scene may be terminal), the merge loop emits
every scene unchanged. -/
lemma mergeLoop_conforming (m : ℚ) :
    ∀ (rest : List Scene) (c : Scene),
      onlyLastTerminalB (c :: rest) = true →
      conformingB m (c :: rest) = true →
      mergeLoop m c rest = some (c :: rest) := by
  intro rest
  induction rest with
  | nil => intro c _ _; rfl
  | cons x rest ih =>
    intro c holt hconf
    simp only [onlyLastTerminalB, Bool.and_eq_true] at holt
    simp only [conformingB, List.all_cons, Bool.and_eq_true] at hconf
    obtain ⟨hcsome, holt'⟩ := holt
    obtain ⟨hc, hx, hrest⟩ := hconf
    obtain ⟨e, he⟩ := Option.isSome_iff_exists.mp hcsome
    simp only [sceneConformsB, Scene.is_end_scene, he, Option.isNone_some,
      Bool.false_or] at hc
    cases hd : c.length_seconds with
    | none => rw [hd] at hc; simp at hc
    | some d =>
      rw [hd] at hc
      simp only [decide_eq_true_eq] at hc
      have hge : ¬ (d < m) := not_lt.mpr hc
      simp only [mergeLoop, hd, hge, if_false]
      rw [ih x holt' (by simp [conformingB, List.all_cons, hx, hrest])]
      rfl

/-- Renumbering a list whose scene numbers already read `i, i+1, ...` is the
identity. -/
lemma renumberFrom_eq_self :
    ∀ (l : List Scene) (i : Nat),
      l.map (·.scene_number) = List.range' i l.length → renumberFrom i l = l := by
  intro l
  induction l with
  | nil => intro i _; rfl
  | cons s rest ih =>
    intro i h
    rw [List.map_cons, List.length_cons, List.range'_succ i rest.length 1] at h
    simp only [List.cons.injEq] at h
    obtain ⟨hs, hrest⟩ := h
    subst hs
    simp only [renumberFrom]
    rw [ih (s.scene_number + 1) hrest]

/-- Claim C7: the Scene Merger is the identity (hence idempotent) on
conforming input: if only the last scene may be terminal, every
non-terminal scene's duration is at least `min_scene_length`, and the
scenes are densely numbered `0..n-1` (as every list produced by the
Boundary Parser or the Merger is), then merging returns the input list
unchanged, and applying the Merger twice equals applying it once. -/
theorem merger_idempotent_c7 (arguments : Namespace) (l : List Scene)
    (holt : onlyLastTerminalB l = true)
    (hconf : conformingB arguments.min_scene_length l = true)
    (hnum : l.map (·.scene_number) = List.range l.length) :
    merge_short_scenes arguments l = some l ∧
    (merge_short_scenes arguments l).bind (merge_short_scenes arguments) =
      merge_short_scenes arguments l := by
  have hmain : merge_short_scenes arguments l = some l := by
    cases l with
    | nil => rfl
    | cons c rest =>
      simp only [merge_short_scenes,
        mergeLoop_conforming arguments.min_scene_length rest c holt hconf,
        Option.map_some']
      rw [renumberFrom_eq_self (c :: rest) 0 (by
        rw [hnum, List.range_eq_range'])]
  refine ⟨hmain, ?_⟩
  rw [hmain]
  simp only [Option.some_bind]
  exact hmain

/-- A conforming first scene for witnesses: 0s → 16s, scene number 0. -/
def wScene0 : Scene := Scene.init (some 16000) (some 16) (some (9/10)) (some 40) none

/-- A terminal second scene for witnesses, scene number 1. -/
def wScene1 : Scene := Scene.init none none none none (some wScene0)

/-- Witness for C7 at a concrete conforming two-scene list. -/
theorem merger_idempotent_c7_witness :
    (onlyLastTerminalB [wScene0, wScene1] = true ∧
     conformingB exArgs.min_scene_length [wScene0, wScene1] = true ∧
     [wScene0, wScene1].map (·.scene_number) = List.range 2) ∧
    (merge_short_scenes exArgs [wScene0, wScene1] = some [wScene0, wScene1] ∧
     (merge_short_scenes exArgs [wScene0, wScene1]).bind
        (merge_short_scenes exArgs) =
       merge_short_scenes exArgs [wScene0, wScene1]) := by
  have h1 : onlyLastTerminalB [wScene0, wScene1] = true := by
    norm_num [onlyLastTerminalB, wScene0, wScene1, Scene.init]
  have h2 : conformingB exArgs.min_scene_length [wScene0, wScene1] = true := by
    norm_num [conformingB, sceneConformsB, Scene.is_end_scene,
      Scene.length_seconds, wScene0, wScene1, exArgs, Scene.init,
      List.all_cons]
  have h3 : [wScene0, wScene1].map (·.scene_number) = List.range 2 := by
    norm_num [wScene0, wScene1, Scene.init, List.range]
    rfl
  exact ⟨⟨h1, h2, h3⟩, merger_idempotent_c7 exArgs [wScene0, wScene1] h1 h2 h3⟩

/-- Renumbering changes no begin/end field, so it preserves contiguity. -/
lemma renumberFrom_contiguousB :
    ∀ (l : List Scene) (i : Nat), contiguousB (renumberFrom i l) = contiguousB l := by
  intro l
  induction l with
  | nil => intro i; rfl
  | cons s rest ih =>
    intro i
    cases rest with
    | nil => rfl
    | cons t rest2 =>
      have h2 : renumberFrom (i + 1) (t :: rest2) =
          { t with scene_number := i + 1 } :: renumberFrom (i + 2) rest2 := rfl
      have h1 : contiguousB (renumberFrom i (s :: t :: rest2)) =
          ((decide (t.begin_pts_time = s.end_pts_time)) &&
            contiguousB (renumberFrom (i + 1) (t :: rest2))) := by
        rw [show renumberFrom i (s :: t :: rest2) =
            { s with scene_number := i } :: renumberFrom (i + 1) (t :: rest2)
          from rfl, h2]
        rfl
      rw [h1, ih (i + 1)]
      rfl

/-- Renumbering changes no end field, so it preserves the
"only the last scene may be terminal" invariant. -/
lemma renumberFrom_onlyLastTerminalB :
    ∀ (l : List Scene) (i : Nat),
      onlyLastTerminalB (renumberFrom i l) = onlyLastTerminalB l := by
  intro l
  induction l with
  | nil => intro i; rfl
  | cons s rest ih =>
    intro i
    cases rest with
    | nil => rfl
    | cons t rest2 =>
      have h2 : renumberFrom (i + 1) (t :: rest2) =
          { t with scene_number := i + 1 } :: renumberFrom (i + 2) rest2 := rfl
      have h1 : onlyLastTerminalB (renumberFrom i (s :: t :: rest2)) =
          (s.end_pts_time.isSome &&
            onlyLastTerminalB (renumberFrom (i + 1) (t :: rest2))) := by
        rw [show renumberFrom i (s :: t :: rest2) =
            { s with scene_number := i } :: renumberFrom (i + 1) (t :: rest2)
          from rfl, h2]
        rfl
      rw [h1, ih (i + 1)]
      rfl

/-- After renumbering from `i`, the scene numbers read `i, i+1, ...`. -/
lemma renumberFrom_map_scene_number :
    ∀ (l : List Scene) (i : Nat),
      (renumberFrom i l).map (·.scene_number) = List.range' i l.length := by
  intro l
  induction l with
  | nil => intro i; rfl
  | cons s rest ih =>
    intro i
    simp only [renumberFrom, List.map_cons, List.length_cons,
      List.range'_succ i rest.length 1, List.cons.injEq, true_and]
    exact ih (i + 1)

/-- Renumbering preserves the length of the list. -/
lemma renumberFrom_length (l : List Scene) (i : Nat) :
    (renumberFrom i l).length = l.length := by
  have h := congrArg List.length (renumberFrom_map_scene_number l i)
  simpa [List.length_map, List.length_range'] using h

/-- Invariant preservation for the merge loop: starting from a scene with a
known begin time, a contiguous remainder, and terminality only in the last
position, the loop succeeds and returns a non-empty list with the same
head begin time that is again contiguous with terminality only at the end. -/
lemma mergeLoop_chain (m : ℚ) :
    ∀ (rest : List Scene) (c : Scene),
      c.begin_pts_time.isSome = true →
      contiguousB (c :: rest) = true →
      onlyLastTerminalB (c :: rest) = true →
      ∃ hd tl, mergeLoop m c rest = some (hd :: tl) ∧
        hd.begin_pts_time = c.begin_pts_time ∧
        contiguousB (hd :: tl) = true ∧
        onlyLastTerminalB (hd :: tl) = true := by
  intro rest
  induction rest with
  | nil =>
    intro c hb hcont holt
    exact ⟨c, [], rfl, rfl, rfl, rfl⟩
  | cons x xs ih =>
    intro c hb hcont holt
    simp only [onlyLastTerminalB, Bool.and_eq_true] at holt
    obtain ⟨hcE, holt2⟩ := holt
    simp only [contiguousB, Bool.and_eq_true, decide_eq_true_eq] at hcont
    obtain ⟨hxb, hcont2⟩ := hcont
    obtain ⟨e, he⟩ := Option.isSome_iff_exists.mp hcE
    obtain ⟨b, hbv⟩ := Option.isSome_iff_exists.mp hb
    have hlen : c.length_seconds = some (e - b) := by
      simp [Scene.length_seconds, he, hbv]
    by_cases hlt : e - b < m
    · have hb2 : (c.merge_other x).begin_pts_time.isSome = true := by
        simpa [Scene.merge_other] using hb
      have hcont3 : contiguousB (c.merge_other x :: xs) = true := by
        cases xs with
        | nil => rfl
        | cons y ys =>
          simp only [contiguousB, Bool.and_eq_true, decide_eq_true_eq]
            at hcont2 ⊢
          exact ⟨by simpa [Scene.merge_other] using hcont2.1, hcont2.2⟩
      have holt3 : onlyLastTerminalB (c.merge_other x :: xs) = true := by
        cases xs with
        | nil => rfl
        | cons y ys =>
          simp only [onlyLastTerminalB, Bool.and_eq_true] at holt2 ⊢
          exact ⟨by simpa [Scene.merge_other] using holt2.1, holt2.2⟩
      obtain ⟨hd, tl, h1, h2, h3, h4⟩ := ih (c.merge_other x) hb2 hcont3 holt3
      refine ⟨hd, tl, ?_, ?_, h3, h4⟩
      · rw [show mergeLoop m c (x :: xs) = mergeLoop m (c.merge_other x) xs
          from by simp [mergeLoop, hlen, hlt]]
        exact h1
      · rw [h2]
        simp [Scene.merge_other]
    · have hxbS : x.begin_pts_time.isSome = true := by
        rw [hxb, he]
        rfl
      obtain ⟨hd, tl, h1, h2, h3, h4⟩ := ih x hxbS hcont2 holt2
      refine ⟨c, hd :: tl, ?_, rfl, ?_, ?_⟩
      · simp [mergeLoop, hlen, hlt, h1]
      · simp only [contiguousB, Bool.and_eq_true, decide_eq_true_eq]
        exact ⟨by rw [h2, hxb], h3⟩
      · simp only [onlyLastTerminalB, Bool.and_eq_true]
        exact ⟨hcE, h4⟩

/-- Claim C6: on every non-empty contiguous scene list whose first scene
has a known begin time (true of every list the Boundary Parser produces,
per the spec's data model where `begin_time` is never null) and in which
only the last scene is terminal, `merge_short_scenes` succeeds and returns
a non-empty list that is again contiguous, densely renumbered `0..n-1`,
and terminal at most in its last position. -/
theorem merger_invariants_c6 (arguments : Namespace) (c : Scene)
    (rest : List Scene)
    (hb : c.begin_pts_time.isSome = true)
    (hcont : contiguousB (c :: rest) = true)
    (holt : onlyLastTerminalB (c :: rest) = true) :
    ∃ out, merge_short_scenes arguments (c :: rest) = some out ∧
      out ≠ [] ∧
      contiguousB out = true ∧
      onlyLastTerminalB out = true ∧
      out.map (·.scene_number) = List.range out.length := by
  obtain ⟨hd, tl, h1, _, h3, h4⟩ :=
    mergeLoop_chain arguments.min_scene_length rest c hb hcont holt
  refine ⟨renumberFrom 0 (hd :: tl), ?_, ?_, ?_, ?_, ?_⟩
  · simp [merge_short_scenes, h1]
  · simp [renumberFrom]
  · rw [renumberFrom_contiguousB]
    exact h3
  · rw [renumberFrom_onlyLastTerminalB]
    exact h4
  · rw [renumberFrom_map_scene_number, renumberFrom_length,
      List.range_eq_range']

/-- Witness for C6 at the concrete two-scene list. -/
theorem merger_invariants_c6_witness :
    (wScene0.begin_pts_time.isSome = true ∧
     contiguousB [wScene0, wScene1] = true ∧
     onlyLastTerminalB [wScene0, wScene1] = true) ∧
    (∃ out, merge_short_scenes exArgs (wScene0 :: [wScene1]) = some out ∧
      out ≠ [] ∧
      contiguousB out = true ∧
      onlyLastTerminalB out = true ∧
      out.map (·.scene_number) = List.range out.length) := by
  have h1 : wScene0.begin_pts_time.isSome = true := by
    simp [wScene0, Scene.init]
  have h2 : contiguousB [wScene0, wScene1] = true := by
    simp [contiguousB, wScene0, wScene1, Scene.init]
  have h3 : onlyLastTerminalB [wScene0, wScene1] = true := by
    simp [onlyLastTerminalB, wScene0, wScene1, Scene.init]
  exact ⟨⟨h1, h2, h3⟩, merger_invariants_c6 exArgs wScene0 [wScene1] h1 h2 h3⟩

/-- Value of a digit run, most significant first. -/
def digitsVal (ds : List Char) : Nat :=
  ds.foldl (fun acc c => 10 * acc + (c.toNat - 48)) 0

/-- Value of the decimal literal `intds.fracds` as a rational. -/
def decimalVal (intds fracds : List Char) : ℚ :=
  (digitsVal intds : ℚ) + (digitsVal fracds : ℚ) / (10 : ℚ) ^ fracds.length

/-- Match a literal character sequence at the start of the input,
returning the remainder. -/
def matchLiteral : List Char → List Char → Option (List Char)
  | [], cs => some cs
  | _ :: _, [] => none
  | l :: ls, c :: cs => if c = l then matchLiteral ls cs else none

/-- Match the regex group `(0|[1-9][0-9]*)`.  Because every occurrence in
the source regexes is followed by a non-digit token, the backtracking
engine behaves exactly like "take the maximal digit run, reject a leading
zero unless the run is exactly `0`". -/
def matchUInt (cs : List Char) : Option (Nat × List Char) :=
  match cs.takeWhile Char.isDigit with
  | [] => none
  | [d] =>
      if d = '0' then some (0, cs.dropWhile Char.isDigit)
      else some (digitsVal [d], cs.dropWhile Char.isDigit)
  | d :: ds =>
      if d = '0' then none
      else some (digitsVal (d :: ds), cs.dropWhile Char.isDigit)

/-- Match the regex fragment ` +` (one or more spaces). -/
def matchSpaces (cs : List Char) : Option (List Char) :=
  match cs with
  | ' ' :: rest => some (rest.dropWhile (· = ' '))
  | _ => none

/-- Match the regex group `[0-9]+\.?[0-9]*` at the end of the pattern
(maximal munch; nothing follows it, so greediness is exact). -/
def matchUFloat (cs : List Char) : Option (ℚ × List Char) :=
  match cs.takeWhile Char.isDigit with
  | [] => none
  | intds =>
    match cs.dropWhile Char.isDigit with
    | '.' :: rest2 =>
        some (decimalVal intds (rest2.takeWhile Char.isDigit),
          rest2.dropWhile Char.isDigit)
    | rest1 => some ((digitsVal intds : ℚ), rest1)

/-- Embedding of `timestamp_matcher_re.match` (`scene_cuts.py`,
lines 38-40): the anchored-prefix match of
`frame:(0|[1-9][0-9]*) +pts:(0|[1-9][0-9]*) +pts_time:([0-9]+\.?[0-9]*)`,
returning the three captured groups. -/
def timestampMatch (line : String) : Option (Nat × Nat × ℚ) := do
  let cs1 ← matchLiteral "frame:".data line.data
  let (frame, cs2) ← matchUInt cs1
  let cs3 ← matchSpaces cs2
  let cs4 ← matchLiteral "pts:".data cs3
  let (pts, cs5) ← matchUInt cs4
  let cs6 ← matchSpaces cs5
  let cs7 ← matchLiteral "pts_time:".data cs6
  let (pts_time, _) ← matchUFloat cs7
  some (frame, pts, pts_time)

/-- Embedding of `score_matcher_re.match` (`scene_cuts.py`, lines 41-43):
the anchored-prefix match of
`lavfi\.scene_score=(1\.0{6}|[0]\.[0-9]{6})`, returning the captured
score as a rational. -/
def scoreMatch (line : String) : Option ℚ :=
  match matchLiteral "lavfi.scene_score=".data line.data with
  | none => none
  | some cs =>
    match cs with
    | '1' :: '.' :: rest =>
        if rest.take 6 = ['0', '0', '0', '0', '0', '0'] then some 1 else none
    | '0' :: '.' :: rest =>
        if (rest.take 6).length = 6 && (rest.take 6).all Char.isDigit then
          some ((digitsVal (rest.take 6) : ℚ) / 10 ^ 6)
        else none
    | _ => none

/-- Consecutive pairing `zip(*([iterable]*2))` from
`parse_raw_timestamps_from_file` (`scene_cuts.py`, line 230): adjacent
line pairs, a trailing odd line dropped. -/
def toPairs {α : Type} : List α → List (α × α)
  | a :: b :: rest => (a, b) :: toPairs rest
  | _ => []

/-- The scene-building loop of `parse_raw_timestamps_from_file`
(`scene_cuts.py`, lines 231-235): a pair failing either regex is skipped,
a matching pair appends a scene whose `previous` is the last appended
scene. -/
def buildLoop : List (String × String) → Option Scene → List Scene
  | [], _ => []
  | (timestamp_line, score_line) :: rest, previous =>
    match timestampMatch timestamp_line, scoreMatch score_line with
    | some (frame, pts, pts_time), some score =>
        let sc := Scene.factory frame pts pts_time score previous
        sc :: buildLoop rest (some sc)
    | _, _ => buildLoop rest previous

/-- Embedding of `parse_raw_timestamps_from_file` (`scene_cuts.py`,
lines 226-245), taking the raw detector lines as input: build scenes from
valid pairs, then append one terminal scene whose `previous` is the last
valid scene (or `None`). -/
def parse_raw_timestamps (lines : List String) : List Scene :=
  buildLoop (toPairs lines) none ++
    [Scene.init none none none none (buildLoop (toPairs lines) none).getLast?]

/-- Number of line pairs that match both detector patterns. -/
def validPairCount (lines : List String) : Nat :=
  ((toPairs lines).filter
    (fun p => (timestampMatch p.1).isSome && (scoreMatch p.2).isSome)).length

/-- The building loop produces exactly one scene per valid pair,
independently of the running `previous` scene. -/
lemma buildLoop_length :
    ∀ (pairs : List (String × String)) (previous : Option Scene),
      (buildLoop pairs previous).length =
        (pairs.filter
          (fun p => (timestampMatch p.1).isSome && (scoreMatch p.2).isSome)).length := by
  intro pairs
  induction pairs with
  | nil => intro previous; rfl
  | cons p rest ih =>
    intro previous
    obtain ⟨timestamp_line, score_line⟩ := p
    cases hT : timestampMatch timestamp_line with
    | none =>
      simp only [buildLoop, hT, List.filter_cons, hT, Option.isSome_none,
        Bool.false_and, Bool.false_eq_true, if_false]
      exact ih previous
    | some t =>
      obtain ⟨frame, pts, pts_time⟩ := t
      cases hS : scoreMatch score_line with
      | none =>
        simp only [buildLoop, hT, hS, List.filter_cons, Option.isSome_none,
          Option.isSome_some, Bool.true_and, Bool.false_eq_true, if_false]
        exact ih previous
      | some score =>
        simp only [buildLoop, hT, hS, List.filter_cons, Option.isSome_some,
          Bool.true_and, if_true, List.length_cons]
        rw [ih]

/-- Claim C8: the Boundary Parser never fails; its output length is the
number of valid pairs plus one; the appended final scene is terminal
(null end fields), and its begin fields copy the last valid scene's end
fields, or are zero when no pair was valid. -/
theorem boundary_parser_c8 (lines : List String) :
    (parse_raw_timestamps lines).length = validPairCount lines + 1 ∧
    ∃ t, (parse_raw_timestamps lines).getLast? = some t ∧
      t.end_pts = none ∧ t.end_pts_time = none ∧ t.end_scene_score = none ∧
      (match (buildLoop (toPairs lines) none).getLast? with
       | none => t.begin_pts = some 0 ∧ t.begin_pts_time = some 0
       | some p => t.begin_pts = p.end_pts ∧
           t.begin_pts_time = p.end_pts_time) := by
  constructor
  · simp only [parse_raw_timestamps, List.length_append, List.length_cons,
      List.length_nil, validPairCount]
    rw [buildLoop_length (toPairs lines) none]
  · refine ⟨Scene.init none none none none
      (buildLoop (toPairs lines) none).getLast?, ?_, ?_⟩
    · simp only [parse_raw_timestamps]
      exact List.getLast?_concat _
    · cases h : (buildLoop (toPairs lines) none).getLast? with
      | none => simp [Scene.init, h]
      | some p => simp [Scene.init, h]

/-- Embedding of an `input_file.InputFile` object, restricted to the state
the verified claims read (`input_file.py`, lines 165-204): the scene list
assigned by `generate_scene_cuts`. -/
structure InputFile where
  scenes : List Scene
deriving Repr, DecidableEq

/-- Does a directory entry match the glob pattern `scene_*.mkv`
(`input_file.py`, line 201)?  Entry names contain no path separator, so
the pattern means: the prefix `scene_`, the suffix `.mkv`, and enough
characters that the two do not overlap. -/
def globSceneMkv (name : String) : Bool :=
  (matchLiteral "scene_".data name.data).isSome &&
    decide (10 ≤ name.data.length) &&
    decide (name.data.drop (name.data.length - 4) = ".mkv".data)

/-- Embedding of `stream_number_re.match(file)["number"]`
(`input_file.py`, lines 27 and 202): the anchored-prefix match of
`scene_([0]|[1-9][0-9]*)\.mkv`; `none` means the regex did not match, in
which case the Python subscript raises a `TypeError`. -/
def sceneFileNumber (name : String) : Option Nat :=
  match matchLiteral "scene_".data name.data with
  | none => none
  | some cs =>
    match matchUInt cs with
    | none => none
    | some (n, rest) =>
      match matchLiteral ".mkv".data rest with
      | none => none
      | some _ => some n

/-- Embedding of the `InputFile.all_scenes_completed` property
(`input_file.py`, lines 194-204), with the completed directory's entry
listing passed explicitly: collect the scene numbers of all entries
matching `scene_*.mkv` and compare that set against `{0,...,n-1}` where
`n` is the scene count.  `none` models the `TypeError` raised when a
glob-matched entry fails the number regex. -/
def all_scenes_completed (completed_entries : List String)
    (input_file : InputFile) : Option Bool :=
  let file_names := completed_entries.filter globSceneMkv
  if file_names.all (fun f => (sceneFileNumber f).isSome) then
    some (decide ((file_names.filterMap sceneFileNumber).toFinset =
      Finset.range input_file.scenes.length))
  else none

/-- Claim C5: when every `scene_*.mkv` entry of the completed directory
carries a well-formed scene number (the only entries the program itself
creates there), `all_scenes_completed` returns a value, and that value is
true iff the set of completed scene numbers is exactly `{0,...,n-1}`:
a missing number forces false, and a stray number `≥ n` forces false. -/
theorem all_scenes_completed_c5 (completed_entries : List String)
    (input_file : InputFile)
    (h : (completed_entries.filter globSceneMkv).all
      (fun f => (sceneFileNumber f).isSome) = true) :
    ∃ b, all_scenes_completed completed_entries input_file = some b ∧
      (b = true ↔ ∀ k,
        (k ∈ (completed_entries.filter globSceneMkv).filterMap sceneFileNumber ↔
          k < input_file.scenes.length)) ∧
      (∀ k, k < input_file.scenes.length →
        k ∉ (completed_entries.filter globSceneMkv).filterMap sceneFileNumber →
        b = false) ∧
      (∀ k,
        k ∈ (completed_entries.filter globSceneMkv).filterMap sceneFileNumber →
        input_file.scenes.length ≤ k → b = false) := by
  refine ⟨decide ((( completed_entries.filter globSceneMkv).filterMap
      sceneFileNumber).toFinset = Finset.range input_file.scenes.length),
    ?_, ?_, ?_, ?_⟩
  · simp only [all_scenes_completed, h, if_true]
  · simp only [decide_eq_true_eq, Finset.ext_iff, List.mem_toFinset,
      Finset.mem_range]
  · intro k hk hmem
    simp only [decide_eq_false_iff_not, Finset.ext_iff, not_forall,
      List.mem_toFinset, Finset.mem_range]
    exact ⟨k, by simp [hmem, hk]⟩
  · intro k hmem hge
    simp only [decide_eq_false_iff_not, Finset.ext_iff, not_forall,
      List.mem_toFinset, Finset.mem_range]
    exact ⟨k, by simp [hmem, Nat.not_lt.mpr hge]⟩

/-- Witness for C5: a ledger holding exactly `scene_0.mkv` and
`scene_1.mkv` (plus entries the glob ignores) for a two-scene input. -/
theorem all_scenes_completed_c5_witness :
    ((["scene_0.mkv", "scene_1.mkv", "notes.txt",
       "scene_0-0.log"].filter globSceneMkv).all
      (fun f => (sceneFileNumber f).isSome) = true) ∧
    (∃ b, all_scenes_completed
        ["scene_0.mkv", "scene_1.mkv", "notes.txt", "scene_0-0.log"]
        ⟨[wScene0, wScene1]⟩ = some b ∧
      (b = true ↔ ∀ k,
        (k ∈ (["scene_0.mkv", "scene_1.mkv", "notes.txt",
               "scene_0-0.log"].filter globSceneMkv).filterMap sceneFileNumber ↔
          k < (InputFile.mk [wScene0, wScene1]).scenes.length)) ∧
      (∀ k, k < (InputFile.mk [wScene0, wScene1]).scenes.length →
        k ∉ (["scene_0.mkv", "scene_1.mkv", "notes.txt",
              "scene_0-0.log"].filter globSceneMkv).filterMap sceneFileNumber →
        b = false) ∧
      (∀ k, k ∈ (["scene_0.mkv", "scene_1.mkv", "notes.txt",
                  "scene_0-0.log"].filter globSceneMkv).filterMap sceneFileNumber →
        (InputFile.mk [wScene0, wScene1]).scenes.length ≤ k → b = false)) := by
  refine ⟨by decide, all_scenes_completed_c5 _ _ (by decide)⟩

/-- The per-input-file scratch and ledger area, as a flat set of paths
relative to the temporary root (`<temp_dir>/...`). -/
structure FileSystem where
  files : List String
deriving Repr, DecidableEq

/-- Path membership test. -/
def FileSystem.contains (fs : FileSystem) (p : String) : Bool :=
  fs.files.contains p

/-- The in-progress path of an encoded scene:
`in_progress_scenes/scene_<N>.mkv` (`command_line.py` line 34 together
with `scene_transcode.py` lines 85-86 and 98). -/
def inProgressScenePath (n : Nat) : String :=
  "in_progress_scenes/scene_" ++ toString n ++ ".mkv"

/-- The completed (ledger) path of an encoded scene:
`completed_scenes/scene_<N>.mkv` (`command_line.py` line 35 together with
`scene_transcode.py` lines 85-86 and 99). -/
def completedScenePath (n : Nat) : String :=
  "completed_scenes/scene_" ++ toString n ++ ".mkv"

/-- Embedding of the command-line object state the verified claims read.
`AbstractCommandLine.__init__` (`command_line.py`, lines 37-51) sets
`finished`, `force_overwrite` and `dump_mode`; `scene_number` is the scene
attached by `AbstractEncoderCommandLine.__init__` (`scene_transcode.py`,
lines 40-42).  The remaining `__init__` state (ffmpeg path, directories,
argv list) is not consulted by any claim. -/
structure AbstractCommandLine where
  finished : Bool
  force_overwrite : Bool
  dump_mode : String
  scene_number : Nat
deriving Repr, DecidableEq

/-- Embedding of `AbstractCommandLine.__init__` for an encoder command
line: `self.finished = False` (`command_line.py`, line 38) unconditionally
— the constructor never inspects the completed directory. -/
def initCommandLine (arguments : Namespace) (scene : Scene) : AbstractCommandLine :=
  { finished := false,
    force_overwrite := arguments.force_overwrite,
    dump_mode := arguments.dump_commands,
    scene_number := scene.scene_number }

/-- Embedding of `AbstractCommandLine.__init__` for the file-scoped
`ConcatFilterCommandLine` (`scene_concat.py`, lines 33-36), which has no
scene. -/
def initConcatCommandLine (arguments : Namespace) : AbstractCommandLine :=
  { finished := false,
    force_overwrite := arguments.force_overwrite,
    dump_mode := arguments.dump_commands,
    scene_number := 0 }

/-- Result of one `run()` call: the updated command-line object, the
resulting file system, and whether the external tool was invoked. -/
structure RunResult where
  cl : AbstractCommandLine
  fs : FileSystem
  invoked_tool : Bool
deriving Repr, DecidableEq

/-- Embedding of `AbstractCommandLine.run` (`command_line.py`,
lines 62-89), with the external tool's exit status supplied as
`returncode`.  When `dump_mode != "only"` the tool is invoked; a non-zero
return code only logs a warning, a zero return code sets
`finished = True`.  When `dump_mode == "only"` the tool is not invoked and
`finished` is set directly.  The method performs no other state change: in
particular it never calls `_move_output_files_to_completed_dir`, so the
scene-artifact paths of the file system are returned unchanged (its only
write is appending the command text to the dump file under the temporary
root when `dump_mode != "no"`, which never creates a scene artifact and is
omitted here). -/
def AbstractCommandLine.run (cl : AbstractCommandLine) (fs : FileSystem)
    (returncode : Int) : RunResult :=
  if cl.dump_mode ≠ "only" then
    if returncode ≠ 0 then
      { cl := cl, fs := fs, invoked_tool := true }
    else
      { cl := { cl with finished := true }, fs := fs, invoked_tool := true }
  else
    { cl := { cl with finished := true }, fs := fs, invoked_tool := false }

/-- Embedding of `AbstractEncoderCommandLine._move_output_files_to_completed_dir`
(`scene_transcode.py`, lines 93-101): `shutil.move` of the encoded scene
from the in-progress directory into the completed directory.  Its
docstring states it "is executed by the encoder command line run(), after
ffmpeg finished" — but nothing in the sources calls it. -/
def move_output_files_to_completed_dir (scene_number : Nat)
    (fs : FileSystem) : FileSystem :=
  { files := completedScenePath scene_number ::
      fs.files.erase (inProgressScenePath scene_number) }

/-- Python list slicing `l[:n]` for a possibly negative `n`. -/
def pySlice {α : Type} (n : Int) (l : List α) : List α :=
  if n < 0 then l.take (l.length - n.natAbs) else l.take n.toNat

/-- Embedding of `_limit_and_filter_commands` (`scene_transcode.py`,
lines 329-337): without force-overwrite, drop commands that are finished
or in dump-only mode; then truncate to the remaining encode budget when
one is configured. -/
def limit_and_filter_commands (arguments : Namespace)
    (command_lines : List AbstractCommandLine) : List AbstractCommandLine :=
  let kept :=
    if !arguments.force_overwrite then
      command_lines.filter
        (fun command => !(command.finished || command.dump_mode == "only"))
    else command_lines
  match arguments.limit_encodes with
  | some n => pySlice n kept
  | none => kept

/-- Running one batch through the worker pool
(`executor.map((lambda run: run()), run_methods)` in
`scene_transcode.py`): each command line runs once with its own external
outcome.  Scene artifacts have per-scene unique names, so the sequential
fold over the file system is equivalent to the concurrent execution. -/
def runJobs : List AbstractCommandLine → List Int → FileSystem →
    (List AbstractCommandLine × FileSystem × Nat)
  | [], _, fs => ([], fs, 0)
  | _ :: _, [], fs => ([], fs, 0)
  | cl :: cls, rc :: rcs, fs =>
    let r := cl.run fs rc
    let rest := runJobs cls rcs r.fs
    (r.cl :: rest.1, rest.2.1, (if r.invoked_tool then 1 else 0) + rest.2.2)

/-- Embedding of `_transcode_single_pass` (`scene_transcode.py`,
lines 255-276): filter and truncate the command lines, run the batch,
count the commands whose `finished` flag is set, and subtract that count
from `arguments.limit_encodes` when a budget is configured. -/
def transcode_single_pass (arguments : Namespace) (fs : FileSystem)
    (all_command_lines : List AbstractCommandLine) (returncodes : List Int) :
    List AbstractCommandLine × FileSystem × Nat × Namespace :=
  let to_run := limit_and_filter_commands arguments all_command_lines
  let r := runJobs to_run returncodes fs
  let successful_encodes := (r.1.filter (·.finished)).length
  let arguments2 :=
    match arguments.limit_encodes with
    | some n =>
        { arguments with limit_encodes := some (n - successful_encodes) }
    | none => arguments
  (r.1, r.2.1, r.2.2, arguments2)

/-- Embedding of `_transcode_two_pass_1` (`scene_transcode.py`,
lines 340-350): run the already-limited first-pass batch and count the
successes (the count is only logged).  The source function does not
receive `arguments` at all, so it cannot modify the encode budget. -/
def transcode_two_pass_1 (first_passes : List AbstractCommandLine)
    (returncodes : List Int) (fs : FileSystem) :
    List AbstractCommandLine × FileSystem × Nat :=
  runJobs first_passes returncodes fs

/-- Embedding of `_transcode_two_pass_2` (`scene_transcode.py`,
lines 353-369): run the already-limited second-pass batch, count the
successes, and subtract that count from `arguments.limit_encodes` when a
budget is configured. -/
def transcode_two_pass_2 (arguments : Namespace)
    (pass2_command_lines : List AbstractCommandLine) (returncodes : List Int)
    (fs : FileSystem) : List AbstractCommandLine × FileSystem × Namespace :=
  let r := runJobs pass2_command_lines returncodes fs
  let successful_encodes := (r.1.filter (·.finished)).length
  let arguments2 :=
    match arguments.limit_encodes with
    | some n =>
        { arguments with limit_encodes := some (n - successful_encodes) }
    | none => arguments
  (r.1, r.2.1, arguments2)

/-- Claim C1 is violated by the code: with the completed artifact for
scene 0 already on disk and force-overwrite off, the freshly constructed
job still has `finished = False` (the constructor never looks at the
ledger), it survives `_limit_and_filter_commands` unfiltered, and running
the batch invokes the external tool once instead of zero times. -/
theorem resume_skip_c1_code_bug :
    (FileSystem.mk [completedScenePath 0]).contains (completedScenePath 0) =
      true ∧
    (initCommandLine exArgs wScene0).finished = false ∧
    exArgs.force_overwrite = false ∧
    limit_and_filter_commands exArgs [initCommandLine exArgs wScene0] =
      [initCommandLine exArgs wScene0] ∧
    (runJobs [initCommandLine exArgs wScene0] [0]
      (FileSystem.mk [completedScenePath 0])).2.2 = 1 := by
  decide

/-- Claim C2 is violated by the code: an encoder `run()` that receives a
zero return code sets `finished = True` but never moves
`scene_0.mkv` from the in-progress directory into the completed
directory (the move that `_move_output_files_to_completed_dir`'s own
docstring says `run()` executes), so the job counts as succeeded while
the designated artifact is still missing from the ledger. -/
theorem run_success_move_c2_code_bug :
    ((initCommandLine exArgs wScene0).run
        (FileSystem.mk [inProgressScenePath 0]) 0).cl.finished = true ∧
    ((initCommandLine exArgs wScene0).run
        (FileSystem.mk [inProgressScenePath 0]) 0).fs.contains
      (completedScenePath 0) = false ∧
    ((initCommandLine exArgs wScene0).run
        (FileSystem.mk [inProgressScenePath 0]) 0).fs.contains
      (inProgressScenePath 0) = true ∧
    (move_output_files_to_completed_dir 0
        (FileSystem.mk [inProgressScenePath 0])).contains
      (completedScenePath 0) = true ∧
    ((initCommandLine exArgs wScene0).run
        (FileSystem.mk [inProgressScenePath 0]) 0).fs ≠
      move_output_files_to_completed_dir 0
        (FileSystem.mk [inProgressScenePath 0]) := by
  decide

/-- Counterexample to claim C3 as stated: a first-pass batch
(`_transcode_two_pass_1`) in which one pending job succeeds.  The source
function neither receives nor updates `arguments`, so the encode budget
after the batch is still the configured `some 1`, not
`some (1 - 1) = some 0` as "decremented by exactly the number of jobs of
that batch that transitioned to Succeeded" would require. -/
theorem budget_c3_counterexample :
    ((transcode_two_pass_1
        [initCommandLine { exArgs with limit_encodes := some 1 } wScene0]
        [0] (FileSystem.mk [])).1.filter (·.finished)).length = 1 ∧
    ({ exArgs with limit_encodes := some 1 } : Namespace).limit_encodes =
      some 1 ∧
    ¬((some 1 : Option Int) = some (1 - 1)) := by
  decide

/-- Claim C3 as amended: each batch is truncated to at most the remaining
budget (with a budget of 2 and three pending jobs exactly the first two
are handed to the pool and the third is left untouched), and the budget is
decremented by exactly the number of jobs that transitioned to `Succeeded`
after a single-pass batch and after a second-pass batch — but not after a
first-pass batch, which leaves the budget unchanged. -/
theorem budget_c3_amended (arguments : Namespace) (n : Int)
    (jobs : List AbstractCommandLine) (returncodes : List Int)
    (fs : FileSystem) (hn : arguments.limit_encodes = some n) (hn0 : 0 ≤ n) :
    ((limit_and_filter_commands arguments jobs).length ≤ n.toNat) ∧
    ((transcode_single_pass arguments fs jobs returncodes).2.2.2.limit_encodes =
      some (n - ((transcode_single_pass arguments fs jobs
        returncodes).1.filter (·.finished)).length)) ∧
    ((transcode_two_pass_2 arguments jobs returncodes fs).2.2.limit_encodes =
      some (n - ((transcode_two_pass_2 arguments jobs returncodes
        fs).1.filter (·.finished)).length)) ∧
    (limit_and_filter_commands { exArgs with limit_encodes := some 2 }
        [initCommandLine { exArgs with limit_encodes := some 2 } wScene0,
         initCommandLine { exArgs with limit_encodes := some 2 } wScene1,
         initCommandLine { exArgs with limit_encodes := some 2 } exScene2] =
      [initCommandLine { exArgs with limit_encodes := some 2 } wScene0,
       initCommandLine { exArgs with limit_encodes := some 2 } wScene1]) := by
  refine ⟨?_, ?_, ?_, by decide⟩
  · simp only [limit_and_filter_commands, hn, pySlice]
    rw [if_neg (by omega)]
    exact le_trans (List.length_take_le _ _) (le_refl _)
  · simp only [transcode_single_pass, hn]
  · simp only [transcode_two_pass_2, hn]

/-- Witness for C3's amended theorem at a concrete budget of 1. -/
theorem budget_c3_amended_witness :
    (({ exArgs with limit_encodes := some 1 } : Namespace).limit_encodes =
        some 1 ∧ (0 : Int) ≤ 1) ∧
    (((limit_and_filter_commands { exArgs with limit_encodes := some 1 }
        [initCommandLine { exArgs with limit_encodes := some 1 } wScene0]).length ≤
      (1 : Int).toNat) ∧
    ((transcode_single_pass { exArgs with limit_encodes := some 1 }
        (FileSystem.mk [])
        [initCommandLine { exArgs with limit_encodes := some 1 } wScene0]
        [0]).2.2.2.limit_encodes =
      some (1 - ((transcode_single_pass { exArgs with limit_encodes := some 1 }
        (FileSystem.mk [])
        [initCommandLine { exArgs with limit_encodes := some 1 } wScene0]
        [0]).1.filter (·.finished)).length)) ∧
    ((transcode_two_pass_2 { exArgs with limit_encodes := some 1 }
        [initCommandLine { exArgs with limit_encodes := some 1 } wScene0]
        [0] (FileSystem.mk [])).2.2.limit_encodes =
      some (1 - ((transcode_two_pass_2 { exArgs with limit_encodes := some 1 }
        [initCommandLine { exArgs with limit_encodes := some 1 } wScene0]
        [0] (FileSystem.mk [])).1.filter (·.finished)).length)) ∧
    (limit_and_filter_commands { exArgs with limit_encodes := some 2 }
        [initCommandLine { exArgs with limit_encodes := some 2 } wScene0,
         initCommandLine { exArgs with limit_encodes := some 2 } wScene1,
         initCommandLine { exArgs with limit_encodes := some 2 } exScene2] =
      [initCommandLine { exArgs with limit_encodes := some 2 } wScene0,
       initCommandLine { exArgs with limit_encodes := some 2 } wScene1])) :=
  ⟨⟨rfl, by decide⟩,
   budget_c3_amended { exArgs with limit_encodes := some 1 } 1
     [initCommandLine { exArgs with limit_encodes := some 1 } wScene0]
     [0] (FileSystem.mk []) rfl (by decide)⟩

deriving instance DecidableEq for Except

/-- Embedding of `pathlib.Path.unlink` applied to an existing path:
`unlink` removes a plain file but raises `IsADirectoryError` when the
path is a directory. -/
def pathUnlink (is_directory : Bool) : Except String Unit :=
  if is_directory then Except.error "IsADirectoryError" else Except.ok ()

/-- Embedding of `_cleanup` (`scene_transcode.py`, lines 398-401): when
`keep_temp` is not set it calls `input_file.temp_dir.unlink()`.  `none`
means no removal was attempted at all (`keep_temp` set); `some r` is the
outcome of the `unlink` call on the temporary root, which
`handle_temp_directory_creation` made a directory. -/
def cleanup (arguments : Namespace) (temp_dir_is_directory : Bool) :
    Option (Except String Unit) :=
  if !arguments.keep_temp then some (pathUnlink temp_dir_is_directory)
  else none

/-- Embedding of the finalization tail of `transcode_input_file`
(`scene_transcode.py`, lines 245-252): when `all_scenes_completed` holds,
the concat command line runs (with outcome `concat_returncode`) and
`_cleanup` is called; otherwise building the output video is skipped and
no temporary files are deleted.  The outer `none` models the `TypeError`
that `all_scenes_completed` can raise.  The returned pair is (did the
concat job finish successfully, the cleanup outcome). -/
def transcode_input_file_finalize (arguments : Namespace)
    (completed_entries : List String) (input_file : InputFile)
    (fs : FileSystem) (concat_returncode : Int)
    (temp_dir_is_directory : Bool) :
    Option (Bool × Option (Except String Unit)) :=
  match all_scenes_completed completed_entries input_file with
  | none => none
  | some true =>
      let r := (initConcatCommandLine arguments).run fs concat_returncode
      some (r.cl.finished, cleanup arguments temp_dir_is_directory)
  | some false => some (false, none)

/-- Claim C9's first half is violated by the code: with all scenes
completed, keep-temp off and a successful concat run, `_cleanup` calls
`Path.unlink()` on the temporary directory, which raises
`IsADirectoryError` and removes nothing — the temporary tree is not
deleted.  The second half holds: when a scene is missing, finalization
reports no success and no cleanup is attempted, so the temporary data is
preserved. -/
theorem finalize_cleanup_c9_code_bug :
    transcode_input_file_finalize exArgs ["scene_0.mkv", "scene_1.mkv"]
        ⟨[wScene0, wScene1]⟩ (FileSystem.mk []) 0 true =
      some (true, some (Except.error "IsADirectoryError")) ∧
    exArgs.keep_temp = false ∧
    transcode_input_file_finalize exArgs ["scene_0.mkv"]
        ⟨[wScene0, wScene1]⟩ (FileSystem.mk []) 0 true =
      some (false, none) := by
  decide

/-- Object-level model of the Python heap: scene objects are identified by
references (`Nat`), a store maps each reference to its current field
values, and updating one object leaves every other reference unchanged. -/
def heapUpdate (st : Nat → Scene) (r : Nat) (v : Scene) : Nat → Scene :=
  fun r2 => if r2 = r then v else st r2

/-- Two scene values agree on the three end fields that
`Scene.merge_other` overwrites. -/
def endsEq (a b : Scene) : Prop :=
  a.end_pts = b.end_pts ∧ a.end_pts_time = b.end_pts_time ∧
    a.end_scene_score = b.end_scene_score

/-- Object-level embedding of the `merge_short_scenes` while-loop
(`scene_cuts.py`, lines 266-272), operating on references into the heap:
`scenes.pop(0)` pops the next reference from the input list,
`current.merge_other(next_)` mutates the accumulator object in place, and
emitted references are appended to `valid_scenes`.  The final
`some (heap, remaining-input, valid_scenes)` returns the mutated heap, the
drained input list, and the references of the result list; `none` models
the `TypeError` raised when `current.length_seconds` is `None`. -/
def mergeLoopS (m : ℚ) :
    (Nat → Scene) → Nat → List Nat → List Nat →
      Option ((Nat → Scene) × List Nat × List Nat)
  | st, _, [], valid => some (st, [], valid)
  | st, current, next :: rest, valid =>
    match (st current).length_seconds with
    | none => none
    | some len =>
      if len < m then
        mergeLoopS m
          (heapUpdate st current ((st current).merge_other (st next)))
          current rest valid
      else
        mergeLoopS m st next rest (valid ++ [next])

/-- Object-level embedding of the renumbering loop (`scene_cuts.py`,
lines 275-276): `scene.scene_number = index` mutates each listed object in
place. -/
def renumberS : (Nat → Scene) → List Nat → Nat → (Nat → Scene)
  | st, [], _ => st
  | st, r :: rest, i =>
      renumberS (heapUpdate st r { st r with scene_number := i }) rest (i + 1)

/-- Object-level embedding of `merge_short_scenes` (`scene_cuts.py`,
lines 259-278): the input is the list of references held by the caller's
Python list object; on return that list has been drained (`pop(0)` until
empty), the returned `valid_scenes` is a fresh list of references into the
same heap, and the heap carries the in-place field mutations. -/
def merge_short_scenesS (m : ℚ) (st : Nat → Scene) (input : List Nat) :
    Option ((Nat → Scene) × List Nat × List Nat) :=
  match input with
  | [] => some (st, [], [])
  | current :: rest =>
    match mergeLoopS m st current rest [current] with
    | none => none
    | some (st2, rem, valid) => some (renumberS st2 valid 0, rem, valid)

/-- End-field agreement is transitive. -/
lemma endsEq_trans {a b c : Scene} (h1 : endsEq a b) (h2 : endsEq b c) :
    endsEq a c :=
  ⟨h1.1.trans h2.1, h1.2.1.trans h2.2.1, h1.2.2.trans h2.2.2⟩

/-- Combined invariants of the object-level merge loop: the input is
drained; the output extends `valid_scenes` by a subsequence of the
remaining input; begin fields, scene numbers and untouched references are
preserved; and every reference's end fields are either unchanged or copied
from some input scene's original end fields. -/
lemma mergeLoopS_spec (m : ℚ) :
    ∀ (rest : List Nat) (st : Nat → Scene) (current : Nat)
      (valid : List Nat) (st2 : Nat → Scene) (rem out : List Nat),
      mergeLoopS m st current rest valid = some (st2, rem, out) →
      rem = [] ∧
      (∃ suffix, out = valid ++ suffix ∧ suffix.Sublist rest) ∧
      (∀ r, (st2 r).begin_pts = (st r).begin_pts ∧
            (st2 r).begin_pts_time = (st r).begin_pts_time ∧
            (st2 r).scene_number = (st r).scene_number) ∧
      (∀ r, r ≠ current → r ∉ rest → st2 r = st r) ∧
      (∀ r, endsEq (st2 r) (st r) ∨
        ∃ s, (s = current ∨ s ∈ rest) ∧ endsEq (st2 r) (st s)) := by
  intro rest
  induction rest with
  | nil =>
    intro st current valid st2 rem out h
    simp only [mergeLoopS, Option.some.injEq, Prod.mk.injEq] at h
    obtain ⟨h1, h2, h3⟩ := h
    subst h1
    subst h2
    subst h3
    refine ⟨rfl, ⟨[], by simp, List.Sublist.slnil⟩, fun r => ⟨rfl, rfl, rfl⟩,
      fun r _ _ => rfl, fun r => Or.inl ⟨rfl, rfl, rfl⟩⟩
  | cons next rest ih =>
    intro st current valid st2 rem out h
    simp only [mergeLoopS] at h
    cases hl : (st current).length_seconds with
    | none => rw [hl] at h; exact absurd h (by simp)
    | some len =>
      rw [hl] at h
      simp only at h
      by_cases hlt : len < m
      · rw [if_pos hlt] at h
        obtain ⟨H1, ⟨suffix, Hs1, Hs2⟩, H3, H4, H5⟩ :=
          ih (heapUpdate st current ((st current).merge_other (st next)))
            current valid st2 rem out h
        refine ⟨H1, ⟨suffix, Hs1, Hs2.cons next⟩, ?_, ?_, ?_⟩
        · intro r
          obtain ⟨b1, b2, b3⟩ := H3 r
          by_cases hr : r = current
          · subst hr
            refine ⟨?_, ?_, ?_⟩ <;>
              simp [b1, b2, b3, heapUpdate, Scene.merge_other]
          · refine ⟨?_, ?_, ?_⟩ <;> simp [b1, b2, b3, heapUpdate, hr]
        · intro r hcur hmem
          rw [H4 r hcur (fun hm => hmem (List.mem_cons_of_mem next hm))]
          simp [heapUpdate, hcur]
        · intro r
          have hup : ∀ r2, r2 ≠ current →
              heapUpdate st current ((st current).merge_other (st next)) r2 =
                st r2 := by
            intro r2 h2
            simp [heapUpdate, h2]
          have hupc : endsEq
              (heapUpdate st current ((st current).merge_other (st next))
                current) (st next) := by
            refine ⟨?_, ?_, ?_⟩ <;> simp [heapUpdate, Scene.merge_other]
          rcases H5 r with he | ⟨s, hs, he⟩
          · by_cases hr : r = current
            · subst hr
              exact Or.inr ⟨next, Or.inr (List.mem_cons_self next rest),
                endsEq_trans he hupc⟩
            · rw [hup r hr] at he
              exact Or.inl he
          · by_cases hsc : s = current
            · subst hsc
              exact Or.inr ⟨next, Or.inr (List.mem_cons_self next rest),
                endsEq_trans he hupc⟩
            · rw [hup s hsc] at he
              refine Or.inr ⟨s, ?_, he⟩
              rcases hs with h | h
              · exact Or.inl h
              · exact Or.inr (List.mem_cons_of_mem next h)
      · rw [if_neg hlt] at h
        obtain ⟨H1, ⟨suffix, Hs1, Hs2⟩, H3, H4, H5⟩ :=
          ih st next (valid ++ [next]) st2 rem out h
        refine ⟨H1, ⟨next :: suffix, by simp [Hs1], Hs2.cons₂ next⟩,
          H3, ?_, ?_⟩
        · intro r hcur hmem
          exact H4 r (fun hr => hmem (hr ▸ List.mem_cons_self next rest))
            (fun hm => hmem (List.mem_cons_of_mem next hm))
        · intro r
          rcases H5 r with he | ⟨s, hs, he⟩
          · exact Or.inl he
          · refine Or.inr ⟨s, ?_, he⟩
            rcases hs with h | h
            · exact Or.inr (h ▸ List.mem_cons_self next rest)
            · exact Or.inr (List.mem_cons_of_mem next h)

/-- The renumbering loop only changes `scene_number` fields. -/
lemma renumberS_fields :
    ∀ (valid : List Nat) (st : Nat → Scene) (i : Nat) (r : Nat),
      (renumberS st valid i r).begin_pts = (st r).begin_pts ∧
      (renumberS st valid i r).begin_pts_time = (st r).begin_pts_time ∧
      endsEq (renumberS st valid i r) (st r) := by
  intro valid
  induction valid with
  | nil => intro st i r; exact ⟨rfl, rfl, rfl, rfl, rfl⟩
  | cons r0 rest ih =>
    intro st i r
    obtain ⟨b1, b2, e1, e2, e3⟩ :=
      ih (heapUpdate st r0 { st r0 with scene_number := i }) (i + 1) r
    by_cases hr : r = r0
    · subst hr
      refine ⟨?_, ?_, ?_, ?_, ?_⟩ <;>
        simp_all [renumberS, heapUpdate, endsEq]
    · refine ⟨?_, ?_, ?_, ?_, ?_⟩ <;>
        simp_all [renumberS, heapUpdate, endsEq, hr]

/-- The renumbering loop leaves unlisted references untouched. -/
lemma renumberS_frame :
    ∀ (valid : List Nat) (st : Nat → Scene) (i : Nat) (r : Nat),
      r ∉ valid → renumberS st valid i r = st r := by
  intro valid
  induction valid with
  | nil => intro st i r _; rfl
  | cons r0 rest ih =>
    intro st i r hmem
    have hr : r ≠ r0 := fun h => hmem (h ▸ List.mem_cons_self r0 rest)
    rw [show renumberS st (r0 :: rest) i =
        renumberS (heapUpdate st r0 { st r0 with scene_number := i }) rest
          (i + 1) from rfl,
      ih _ (i + 1) r (fun hm => hmem (List.mem_cons_of_mem r0 hm))]
    simp [heapUpdate, hr]

/-- Claim C10: `merge_short_scenes` destructively consumes its argument.
Whenever the object-level run returns (it does not raise), the caller's
input list has been drained to `[]`; the returned list is a new list whose
elements are a subsequence of the original scene objects (the same
references, starting with the first); no object outside the input list is
touched; begin fields are never modified; and every input object's end
fields are either unchanged or overwritten in place with the original end
fields of some scene of the input (the absorbed scene). -/
theorem merge_consumes_c10 (m : ℚ) (st st2 : Nat → Scene)
    (input rem out : List Nat)
    (h : merge_short_scenesS m st input = some (st2, rem, out)) :
    rem = [] ∧
    out.Sublist input ∧
    out.head? = input.head? ∧
    (∀ r, (st2 r).begin_pts = (st r).begin_pts ∧
          (st2 r).begin_pts_time = (st r).begin_pts_time) ∧
    (∀ r, r ∉ input → st2 r = st r) ∧
    (∀ r, r ∈ input → ∃ s ∈ input,
      (st2 r).end_pts = (st s).end_pts ∧
      (st2 r).end_pts_time = (st s).end_pts_time ∧
      (st2 r).end_scene_score = (st s).end_scene_score) := by
  cases input with
  | nil =>
    simp only [merge_short_scenesS, Option.some.injEq, Prod.mk.injEq] at h
    obtain ⟨h1, h2, h3⟩ := h
    subst h1
    subst h2
    subst h3
    exact ⟨rfl, List.Sublist.slnil, rfl, fun r => ⟨rfl, rfl⟩,
      fun r _ => rfl, fun r hr => absurd hr (List.not_mem_nil r)⟩
  | cons current rest =>
    simp only [merge_short_scenesS] at h
    cases hm : mergeLoopS m st current rest [current] with
    | none => rw [hm] at h; exact absurd h (by simp)
    | some res =>
      obtain ⟨st3, rem3, valid3⟩ := res
      rw [hm] at h
      simp only [Option.some.injEq, Prod.mk.injEq] at h
      obtain ⟨h1, h2, h3⟩ := h
      subst h1
      subst h2
      subst h3
      obtain ⟨H1, ⟨suffix, Hs1, Hs2⟩, H3, H4, H5⟩ :=
        mergeLoopS_spec m rest st current [current] st3 rem3 valid3 hm
      subst H1
      subst Hs1
      have hvmem : ∀ r, r ∈ [current] ++ suffix → r ∈ current :: rest := by
        intro r hr
        rcases List.mem_append.mp hr with h | h
        · simpa using Or.inl (List.mem_singleton.mp h)
        · exact List.mem_cons_of_mem current (Hs2.subset h)
      refine ⟨rfl, ?_, rfl, ?_, ?_, ?_⟩
      · exact Hs2.cons₂ current
      · intro r
        obtain ⟨b1, b2, _⟩ := renumberS_fields ([current] ++ suffix) st3 0 r
        obtain ⟨c1, c2, _⟩ := H3 r
        exact ⟨b1.trans c1, b2.trans c2⟩
      · intro r hmem
        have hnv : r ∉ [current] ++ suffix := fun hv => hmem (hvmem r hv)
        rw [renumberS_frame ([current] ++ suffix) st3 0 r hnv]
        exact H4 r (fun hc => hmem (hc ▸ List.mem_cons_self current rest))
          (fun hm2 => hmem (List.mem_cons_of_mem current hm2))
      · intro r hmem
        have hre : endsEq (renumberS st3 ([current] ++ suffix) 0 r) (st3 r) :=
          (renumberS_fields ([current] ++ suffix) st3 0 r).2.2
        rcases H5 r with he | ⟨s, hs, he⟩
        · exact ⟨r, hmem, (endsEq_trans hre he).1,
            (endsEq_trans hre he).2.1, (endsEq_trans hre he).2.2⟩
        · have hsmem : s ∈ current :: rest := by
            rcases hs with h | h
            · exact h ▸ List.mem_cons_self current rest
            · exact List.mem_cons_of_mem current h
          exact ⟨s, hsmem, (endsEq_trans hre he).1,
            (endsEq_trans hre he).2.1, (endsEq_trans hre he).2.2⟩

/-- Witness for C10 at a one-object heap and one-element input list. -/
theorem merge_consumes_c10_witness :
    (merge_short_scenesS 5 (fun _ => wScene0) [0] =
      some (heapUpdate (fun _ => wScene0) 0 { wScene0 with scene_number := 0 },
        [], [0])) ∧
    (([] : List Nat) = [] ∧
     ([0] : List Nat).Sublist [0] ∧
     ([0] : List Nat).head? = ([0] : List Nat).head? ∧
     (∀ r, ((heapUpdate (fun _ => wScene0) 0
          { wScene0 with scene_number := 0 }) r).begin_pts =
            ((fun _ => wScene0) r).begin_pts ∧
        ((heapUpdate (fun _ => wScene0) 0
          { wScene0 with scene_number := 0 }) r).begin_pts_time =
            ((fun _ => wScene0) r).begin_pts_time) ∧
     (∀ r, r ∉ ([0] : List Nat) →
        (heapUpdate (fun _ => wScene0) 0
          { wScene0 with scene_number := 0 }) r = (fun _ => wScene0) r) ∧
     (∀ r, r ∈ ([0] : List Nat) → ∃ s ∈ ([0] : List Nat),
        ((heapUpdate (fun _ => wScene0) 0
          { wScene0 with scene_number := 0 }) r).end_pts =
            ((fun _ => wScene0) s).end_pts ∧
        ((heapUpdate (fun _ => wScene0) 0
          { wScene0 with scene_number := 0 }) r).end_pts_time =
            ((fun _ => wScene0) s).end_pts_time ∧
        ((heapUpdate (fun _ => wScene0) 0
          { wScene0 with scene_number := 0 }) r).end_scene_score =
            ((fun _ => wScene0) s).end_scene_score)) :=
  ⟨rfl, merge_consumes_c10 5 (fun _ => wScene0)
    (heapUpdate (fun _ => wScene0) 0 { wScene0 with scene_number := 0 })
    [0] [] [0] rfl⟩

end Av1Transcoder
